import Mathlib

/-!
Verification development for `litra-autotoggle` (`src/main.rs`).

The program watches camera busy/idle events and mirrors them onto Logitech
Litra lights. This file shallowly embeds the parts of the program the claims
are about: the device matcher (`get_all_supported_devices`), the device
applier (`turn_on_all_supported_devices_and_log`,
`turn_off_all_supported_devices_and_log`, `toggle_back_light_if_applicable`,
`get_serial_number_with_fallback`), the body of the scheduled delayed action
inside `handle_autotoggle_command`, a discrete-event model of the debounce
coordinator, and the Linux inotify watch loop body.

External effects are made explicit: the embedded matcher/applier return a
trace of the device operations they attempt, and fallible external calls
(`device.open`, `handle.serial_number`, `handle.set_on`,
`handle.set_back_on`) are modelled as data stored on the device/handle.
-/

deriving instance DecidableEq for Except

/-- Rust's `str::starts_with`, expressed on the underlying character lists
so that it is kernel-computable (extensionally it is `String.startsWith`). -/
def strStartsWith (s pfx : String) : Bool := pfx.data.isPrefixOf s.data

/-- `litra::DeviceType` as used in `main.rs` (the three product families). -/
inductive DeviceType where
  | litraGlow
  | litraBeam
  | litraBeamLX
deriving DecidableEq

/-- Rendering of `litra::DeviceType` to the CLI device-type strings
(`check_device_filters`, main.rs lines 154-158). -/
def deviceTypeStr : DeviceType → String
  | .litraGlow => "glow"
  | .litraBeam => "beam"
  | .litraBeamLX => "beam_lx"

/-- The outcome of `handle.serial_number()`, which in the `litra` crate has
type `Result<Option<&str>, _>`: the read may fail (`err`), succeed with no
serial present (`okNone`), or succeed with a serial (`okSome`). -/
inductive SerialReadResult where
  | err
  | okNone
  | okSome (s : String)
deriving DecidableEq

/-- An opened `litra::DeviceHandle`. Besides its device type it carries the
outcomes of the fallible external calls the program makes on it: the result
of `serial_number()`, and whether `set_on b` / `set_back_on b` succeed for
each boolean argument. -/
structure DeviceHandle where
  deviceType : DeviceType
  serial : SerialReadResult
  setOnOkOn : Bool
  setOnOkOff : Bool
  setBackOnOkOn : Bool
  setBackOnOkOff : Bool
deriving DecidableEq

/-- Whether `handle.set_on b` succeeds on this handle. -/
def DeviceHandle.setOnOk (h : DeviceHandle) (b : Bool) : Bool :=
  if b then h.setOnOkOn else h.setOnOkOff

/-- Whether `handle.set_back_on b` succeeds on this handle. -/
def DeviceHandle.setBackOnOk (h : DeviceHandle) (b : Bool) : Bool :=
  if b then h.setBackOnOkOn else h.setBackOnOkOff

/-- A connected `litra::Device` before opening: its path, its type, and the
outcome of `device.open(context)` (`none` models an `Err`). -/
structure Device where
  devicePath : String
  deviceType : DeviceType
  openResult : Option DeviceHandle
deriving DecidableEq

/-- The `Litra` device context: whether `refresh_connected_devices()`
succeeds, and the devices `get_connected_devices()` enumerates. -/
structure Litra where
  refreshOk : Bool
  connectedDevices : List Device
deriving DecidableEq

/-- The `CliError` enum of `main.rs` (payloads of the wrapped external
errors are irrelevant to control flow and elided). -/
inductive CliError where
  | DeviceError
  | IoError
  | NoDevicesFound
  | DeviceNotFound (serial : String)
  | MultipleFiltersSpecified
  | ConfigFileError (msg : String)
  | InvalidDeviceType (t : String)
deriving DecidableEq

/-- Device-subsystem operations performed by the matcher, recorded in order:
a `refresh_connected_devices()` call and each `device.open(context)` call. -/
inductive DevOp where
  | refresh
  | openDev (d : Device)
deriving DecidableEq

/-- Operations attempted by the applier, recorded in order. `setOn` and
`setBackOn` record the handle, the power value passed, and whether the
external call succeeded (on failure the code only logs a warning).
`notFoundLog` records the `print_device_not_found_log` call. -/
inductive ApplyOp where
  | notFoundLog (serial : Option String)
  | setOn (h : DeviceHandle) (powerOn : Bool) (ok : Bool)
  | setBackOn (h : DeviceHandle) (powerOn : Bool) (ok : Bool)
deriving DecidableEq

/-- The power value an `ApplyOp` passes to the device, if any. -/
def ApplyOp.powerValue : ApplyOp → Option Bool
  | .notFoundLog _ => none
  | .setOn _ powerOn _ => some powerOn
  | .setBackOn _ powerOn _ => some powerOn

/-- `validate_single_filter` (main.rs lines 217-236): counts how many of the
three filters are set and rejects more than one. -/
def validate_single_filter (serial_number device_path device_type : Option String) :
    Except CliError Unit :=
  let filter_count :=
    (List.filter (fun x => x) [serial_number.isSome, device_path.isSome, device_type.isSome]).length
  if filter_count > 1 then Except.error CliError.MultipleFiltersSpecified else Except.ok ()

/-- `check_device_filters` (main.rs lines 140-166): the first-pass predicate
on enumerated devices. Path filter wins if set; else type filter; a serial
filter is deferred to the second pass (the predicate returns `true`). -/
def check_device_filters (_serial_number device_path device_type : Option String)
    (device : Device) : Bool :=
  match device_path with
  | some path => device.devicePath == path
  | none =>
    match device_type with
    | some expected => deviceTypeStr device.deviceType == expected
    | none => true

/-- One candidate of the serial second pass (main.rs lines 347-355): the
device is kept only when `device.open` succeeds and `serial_number()`
returns `Ok(Some(s))` with `s` equal to the filter; an open failure or an
unreadable serial silently drops the candidate. -/
def serialKeep (serial : String) (d : Device) : Option DeviceHandle :=
  match d.openResult with
  | some h =>
    match h.serial with
    | SerialReadResult.okSome actual => if actual = serial then some h else none
    | SerialReadResult.okNone => none
    | SerialReadResult.err => none
  | none => none

/-- The serial second pass of `get_all_supported_devices` (main.rs lines
345-356), applied to every candidate in order. -/
def serialSecondPass (serial : String) (candidates : List Device) : List DeviceHandle :=
  candidates.filterMap (serialKeep serial)

/-- `get_all_supported_devices` (main.rs lines 319-374). Returns the trace
of device-subsystem operations alongside the result. Validation runs before
any refresh; a failing refresh is fatal (`DeviceError`); open failures are
swallowed; an empty result with `require_device` raises `DeviceNotFound`
(serial filter set) or `NoDevicesFound`. -/
def get_all_supported_devices (ctx : Litra)
    (serial_number device_path device_type : Option String) (require_device : Bool) :
    List DevOp × Except CliError (List DeviceHandle) :=
  match validate_single_filter serial_number device_path device_type with
  | .error e => ([], .error e)
  | .ok _ =>
    if ctx.refreshOk then
      let potential :=
        ctx.connectedDevices.filter (check_device_filters serial_number device_path device_type)
      let handles :=
        match serial_number with
        | some serial => serialSecondPass serial potential
        | none => potential.filterMap Device.openResult
      let trace := DevOp.refresh :: potential.map DevOp.openDev
      if handles.isEmpty && require_device then
        match serial_number with
        | some serial => (trace, .error (.DeviceNotFound serial))
        | none => (trace, .error .NoDevicesFound)
      else
        (trace, .ok handles)
    else
      ([DevOp.refresh], .error .DeviceError)

/-- `get_serial_number_with_fallback` (main.rs lines 496-501). The code
calls `handle.serial_number().unwrap()`: an `Err` from the serial read
panics, modelled as `none`; `Ok(None)` falls back to the constant `"-"`. -/
def get_serial_number_with_fallback (h : DeviceHandle) : Option String :=
  match h.serial with
  | .err => none
  | .okSome s => some s
  | .okNone => some "-"

/-- `toggle_back_light_if_applicable` (main.rs lines 378-397): attempts
`set_back_on powerOn` exactly when the `back` flag is set and the device is a
Litra Beam LX; a failure is only logged. -/
def toggle_back_light_if_applicable (h : DeviceHandle) (powerOn back : Bool) : List ApplyOp :=
  if back && h.deviceType == DeviceType.litraBeamLX then
    [ApplyOp.setBackOn h powerOn (h.setBackOnOk powerOn)]
  else
    []

/-- The per-handle loop shared by `turn_on_all_supported_devices_and_log`
and `turn_off_all_supported_devices_and_log` (main.rs lines 418-436 and
461-479): each handle gets a `set_on` attempt (failure logged, iteration
continues) followed by the back-light toggle. -/
def applyOpsFor (back powerOn : Bool) : List DeviceHandle → List ApplyOp
  | [] => []
  | h :: rest =>
    ApplyOp.setOn h powerOn (h.setOnOk powerOn)
      :: (toggle_back_light_if_applicable h powerOn back ++ applyOpsFor back powerOn rest)

/-- `turn_on_all_supported_devices_and_log` (main.rs lines 399-440):
matcher errors propagate; an empty handle list is logged via
`print_device_not_found_log`; otherwise every handle is processed. -/
def turn_on_all_supported_devices_and_log (ctx : Litra)
    (serial_number device_path device_type : Option String) (require_device back : Bool) :
    List DevOp × Except CliError (List ApplyOp) :=
  ((get_all_supported_devices ctx serial_number device_path device_type require_device).1,
    match (get_all_supported_devices ctx serial_number device_path device_type require_device).2 with
    | .error e => .error e
    | .ok handles =>
      if handles.isEmpty then .ok [ApplyOp.notFoundLog serial_number]
      else .ok (applyOpsFor back true handles))

/-- `turn_off_all_supported_devices_and_log` (main.rs lines 442-483). -/
def turn_off_all_supported_devices_and_log (ctx : Litra)
    (serial_number device_path device_type : Option String) (require_device back : Bool) :
    List DevOp × Except CliError (List ApplyOp) :=
  ((get_all_supported_devices ctx serial_number device_path device_type require_device).1,
    match (get_all_supported_devices ctx serial_number device_path device_type require_device).2 with
    | .error e => .error e
    | .ok handles =>
      if handles.isEmpty then .ok [ApplyOp.notFoundLog serial_number]
      else .ok (applyOpsFor back false handles))

/-- The body of the scheduled delayed action spawned by
`handle_autotoggle_command` (identical on all three platforms; Linux lines
750-782, macOS lines 593-625): after the settle sleep it takes
(`Option::take`) the shared desired-state cell, does nothing when the taken
value is absent, and otherwise runs the turn-on/turn-off path under the
shared context lock. The `Result` of that call is discarded with `let _ =`.
Returns the new cell value, the device-subsystem trace, and the applier
trace. -/
def pending_action_body (ctx : Litra)
    (serial_number device_path device_type : Option String) (require_device back : Bool)
    (desired : Option Bool) : Option Bool × List DevOp × List ApplyOp :=
  match desired with
  | none => (none, [], [])
  | some state =>
    let r :=
      if state then
        turn_on_all_supported_devices_and_log ctx serial_number device_path device_type
          require_device back
      else
        turn_off_all_supported_devices_and_log ctx serial_number device_path device_type
          require_device back
    (none, r.1, match r.2 with | .ok ops => ops | .error _ => [])

/-! ## Debounce coordinator: discrete-event model of a burst of edges

`handle_autotoggle_command` keeps `pending_action : Option JoinHandle` and a
shared `desired_state : Option Bool` cell. On each accepted edge it writes
the edge's power value into the cell, aborts any pending action
(`pending_action.take()` then `abort()`), and spawns a replacement that
sleeps for the settle delay, takes the cell, and applies the taken value.
The model below replays a timestamped list of edges against that protocol;
an apply is recorded as the power value handed to the device applier. -/

/-- The coordinator's shared state: the desired-state cell and the absolute
fire time of the at-most-one pending delayed action. -/
structure BurstState where
  desired : Option Bool
  pendingFire : Option Nat
deriving DecidableEq

/-- A pending action whose fire time has been reached runs its body: it
takes the desired-state cell and applies the taken value if present
(main.rs lines 751-781). Returns the state afterwards and the applies
performed. -/
def fireIfDue (s : BurstState) (now : Nat) : BurstState × List Bool :=
  match s.pendingFire with
  | some ft =>
    if ft ≤ now then
      match s.desired with
      | some v => (⟨none, none⟩, [v])
      | none => (⟨none, none⟩, [])
    else (s, [])
  | none => (s, [])

/-- Accepting an edge at time `t` with power value `b` (main.rs lines
725-750): write `some b` into the desired-state cell, abort the pending
action, and schedule a replacement that fires at `t + delay`. -/
def acceptEdge (delay : Nat) (_s : BurstState) (t : Nat) (b : Bool) : BurstState :=
  ⟨some b, some (t + delay)⟩

/-- Replay a list of timestamped edges: before each edge, a pending action
whose fire time has passed runs; then the edge is accepted. -/
def runEdges (delay : Nat) : BurstState → List (Nat × Bool) → BurstState × List Bool
  | s, [] => (s, [])
  | s, (t, b) :: rest =>
    let fr := fireIfDue s t
    let s2 := acceptEdge delay fr.1 t b
    let res := runEdges delay s2 rest
    (res.1, fr.2 ++ res.2)

/-- After the last edge the surviving pending action eventually fires and
applies the cell's value if present. -/
def flushPending (s : BurstState) : List Bool :=
  match s.pendingFire, s.desired with
  | some _, some v => [v]
  | _, _ => []

/-- The applies produced by a whole burst, starting from the idle state. -/
def runBurst (delay : Nat) (edges : List (Nat × Bool)) : List Bool :=
  let r := runEdges delay ⟨none, none⟩ edges
  r.2 ++ flushPending r.1

/-- Consecutive edges arrive with gaps shorter than the settle delay. -/
def gapsOk (delay : Nat) : List (Nat × Bool) → Bool
  | [] => true
  | [_] => true
  | a :: b :: rest => decide (b.1 < a.1 + delay) && gapsOk delay (b :: rest)

/-! ## Linux inotify watch loop (main.rs lines 695-735) -/

/-- The inotify event masks the loop distinguishes. -/
inductive EventMask where
  | opened
  | closeWrite
  | closeNoWrite
  | other
deriving DecidableEq

/-- An inotify event: an optional file name (`event.name` converted from
`OsStr`, which may fail) and its mask. -/
structure InotifyEvent where
  name : Option String
  mask : EventMask
deriving DecidableEq

/-- Processing of one inotify event (main.rs lines 703-717): events without
a name, or whose name does not start with the video-file prefix, are
dropped; `OPEN` bumps the open-device count with `saturating_add`;
`CLOSE_WRITE`/`CLOSE_NOWRITE` drop it with `saturating_sub` (on `Nat`,
subtraction saturates at zero exactly like `usize::saturating_sub`);
other masks are ignored. -/
def processEvent (videoFilePfx : String) (numOpen : Nat) (e : InotifyEvent) : Nat :=
  match e with
  | ⟨some name, mask⟩ =>
    if strStartsWith name videoFilePfx then
      match mask with
      | .opened => numOpen + 1
      | .closeWrite => numOpen - 1
      | .closeNoWrite => numOpen - 1
      | .other => numOpen
    else numOpen
  | ⟨none, _⟩ => numOpen

/-- State carried across iterations of the Linux watch loop: the coalesced
open-video-device count, the shared desired-state cell, and a counter of
how many delayed actions have been spawned so far (each spawn first aborts
the previous pending action, so the count of live pending actions is at
most one; `spawnCount` records scheduling activity). -/
structure WatchState where
  numDevicesOpen : Nat
  desiredState : Option Bool
  spawnCount : Nat
deriving DecidableEq

/-- One iteration of the Linux watch loop (main.rs lines 696-783): fold the
event batch into the count; if the count is unchanged, `continue` (no
intent update, no new delayed action); otherwise set the desired state to
whether at least one device is open and spawn a replacement delayed
action. -/
def watchIteration (videoFilePfx : String) (s : WatchState) (events : List InotifyEvent) :
    WatchState :=
  let n := events.foldl (processEvent videoFilePfx) s.numDevicesOpen
  if n = s.numDevicesOpen then
    { s with numDevicesOpen := n }
  else
    { numDevicesOpen := n, desiredState := some (n != 0), spawnCount := s.spawnCount + 1 }

/-! ## Helper lemmas -/

/-- With only a serial filter set, the first-pass predicate accepts every
device, so the first-pass filter is the identity. -/
lemma filter_serial_only (s : String) :
    ∀ l : List Device, l.filter (check_device_filters (some s) none none) = l
  | [] => rfl
  | d :: rest => by
    rw [List.filter_cons]
    simp only [show check_device_filters (some s) none none d = true from rfl, if_true]
    rw [filter_serial_only s rest]

/-- Membership characterization of the serial second pass: a handle is kept
exactly when some candidate opens to it and its serial read succeeds with
the filter value. -/
lemma mem_serialSecondPass (s : String) (l : List Device) (h₀ : DeviceHandle) :
    h₀ ∈ serialSecondPass s l ↔
      ∃ d ∈ l, d.openResult = some h₀ ∧ h₀.serial = SerialReadResult.okSome s := by
  simp only [serialSecondPass, List.mem_filterMap]
  constructor
  · rintro ⟨d, hd, hmatch⟩
    refine ⟨d, hd, ?_⟩
    unfold serialKeep at hmatch
    split at hmatch
    case h_2 => simp at hmatch
    case h_1 h heq =>
      split at hmatch
      case h_2 => simp at hmatch
      case h_3 => simp at hmatch
      case h_1 a heq2 =>
        split at hmatch
        case isTrue ha =>
          injection hmatch with hh
          subst hh
          subst ha
          exact ⟨heq, heq2⟩
        case isFalse => simp at hmatch
  · rintro ⟨d, hd, hopen, hser⟩
    refine ⟨d, hd, ?_⟩
    unfold serialKeep
    rw [hopen]
    simp [hser]

/-- A nonempty list is not `isEmpty`. -/
lemma isEmpty_false_of_ne_nil {α : Type} {l : List α} (h : l ≠ []) : l.isEmpty = false := by
  cases l with
  | nil => exact absurd rfl h
  | cons a t => rfl

/-- Every handle in the list receives its `set_on` attempt in the applier
loop, regardless of any per-device failures. -/
lemma setOn_mem_applyOpsFor (back powerOn : Bool) :
    ∀ (hs : List DeviceHandle), ∀ h ∈ hs,
      ApplyOp.setOn h powerOn (h.setOnOk powerOn) ∈ applyOpsFor back powerOn hs
  | [], h, hmem => absurd hmem (List.not_mem_nil h)
  | a :: rest, h, hmem => by
    rcases List.mem_cons.mp hmem with rfl | hrest
    · exact List.mem_cons_self _ _
    · exact List.mem_cons_of_mem _
        (List.mem_append_right _ (setOn_mem_applyOpsFor back powerOn rest h hrest))

/-- Back-light operations always carry the power value they were asked to
apply. -/
lemma powerValue_toggle (h : DeviceHandle) (powerOn back : Bool) :
    ∀ op ∈ toggle_back_light_if_applicable h powerOn back,
      ApplyOp.powerValue op = some powerOn := by
  intro op hop
  unfold toggle_back_light_if_applicable at hop
  split at hop
  · rcases List.mem_singleton.mp hop with rfl
    rfl
  · exact absurd hop (List.not_mem_nil op)

/-- Every operation emitted by the applier loop carries the requested power
value. -/
lemma powerValue_applyOpsFor (back powerOn : Bool) :
    ∀ (hs : List DeviceHandle), ∀ op ∈ applyOpsFor back powerOn hs,
      ApplyOp.powerValue op = some powerOn
  | [], op, hop => absurd hop (List.not_mem_nil op)
  | a :: rest, op, hop => by
    rcases List.mem_cons.mp hop with rfl | h2
    · rfl
    · rcases List.mem_append.mp h2 with h3 | h4
      · exact powerValue_toggle a powerOn back op h3
      · exact powerValue_applyOpsFor back powerOn rest op h4

/-- Operations in a successful turn-on result either carry power `true` or
are the not-found log line. -/
lemma turn_on_ops_spec (ctx : Litra) (sn dp dt : Option String) (rd back : Bool)
    (ops : List ApplyOp)
    (h : (turn_on_all_supported_devices_and_log ctx sn dp dt rd back).2 = Except.ok ops) :
    ∀ op ∈ ops, ApplyOp.powerValue op = some true ∨ op = ApplyOp.notFoundLog sn := by
  intro op hop
  unfold turn_on_all_supported_devices_and_log at h
  rcases hget : (get_all_supported_devices ctx sn dp dt rd).2 with e | handles
  · rw [hget] at h; exact absurd h (by simp)
  · rw [hget] at h
    by_cases he : handles.isEmpty
    · simp only [he, if_true] at h
      injection h with h
      subst h
      rcases List.mem_singleton.mp hop with rfl
      exact Or.inr rfl
    · simp only [he, if_false] at h
      injection h with h
      subst h
      exact Or.inl (powerValue_applyOpsFor back true handles op hop)

/-- Operations in a successful turn-off result either carry power `false`
or are the not-found log line. -/
lemma turn_off_ops_spec (ctx : Litra) (sn dp dt : Option String) (rd back : Bool)
    (ops : List ApplyOp)
    (h : (turn_off_all_supported_devices_and_log ctx sn dp dt rd back).2 = Except.ok ops) :
    ∀ op ∈ ops, ApplyOp.powerValue op = some false ∨ op = ApplyOp.notFoundLog sn := by
  intro op hop
  unfold turn_off_all_supported_devices_and_log at h
  rcases hget : (get_all_supported_devices ctx sn dp dt rd).2 with e | handles
  · rw [hget] at h; exact absurd h (by simp)
  · rw [hget] at h
    by_cases he : handles.isEmpty
    · simp only [he, if_true] at h
      injection h with h
      subst h
      rcases List.mem_singleton.mp hop with rfl
      exact Or.inr rfl
    · simp only [he, if_false] at h
      injection h with h
      subst h
      exact Or.inl (powerValue_applyOpsFor back false handles op hop)

/-! ## Claims -/

/-- Claim C9, counterexample: the claim says computing the display serial
never fails or panics, but `get_serial_number_with_fallback` calls
`handle.serial_number().unwrap()`: on a handle whose serial read fails the
program panics (modelled as `none`); there is no synthesized fallback
identifier. -/
theorem c9_counterexample :
    get_serial_number_with_fallback
      ⟨DeviceType.litraGlow, SerialReadResult.err, true, true, true, true⟩ = none := rfl

/-- Claim C9 (amended): when the serial read succeeds, the display serial
never fails: it is the serial when present and the constant placeholder
`"-"` otherwise; when the serial read fails, the computation panics (the
`Result` is unwrapped) instead of falling back. -/
theorem c9_display_serial (h : DeviceHandle) :
    (∀ s, h.serial = SerialReadResult.okSome s → get_serial_number_with_fallback h = some s) ∧
    (h.serial = SerialReadResult.okNone → get_serial_number_with_fallback h = some "-") ∧
    (h.serial = SerialReadResult.err → get_serial_number_with_fallback h = none) := by
  refine ⟨fun s hs => ?_, fun hs => ?_, fun hs => ?_⟩ <;>
    simp [get_serial_number_with_fallback, hs]

/-- Witness for C9 (amended), at a handle with no readable serial and at a
handle with serial `"S1"`. -/
theorem c9_display_serial_witness :
    get_serial_number_with_fallback
      ⟨DeviceType.litraBeam, SerialReadResult.okNone, true, true, true, true⟩ = some "-" ∧
    get_serial_number_with_fallback
      ⟨DeviceType.litraBeam, SerialReadResult.okSome "S1", true, true, true, true⟩
        = some "S1" :=
  ⟨(c9_display_serial _).2.1 rfl, (c9_display_serial _).1 "S1" rfl⟩

/-- Claim C8: the back light is set iff the `back` option is enabled and
the handle is a Litra Beam LX; when set, it gets the same power value as
the primary light, its failure is recorded but does not fail the operation
(the function is total and returns no error). -/
theorem c8_back_light (h : DeviceHandle) (powerOn back : Bool) :
    (toggle_back_light_if_applicable h powerOn back = [] ↔
      ¬(back = true ∧ h.deviceType = DeviceType.litraBeamLX)) ∧
    (back = true ∧ h.deviceType = DeviceType.litraBeamLX →
      toggle_back_light_if_applicable h powerOn back
        = [ApplyOp.setBackOn h powerOn (h.setBackOnOk powerOn)]) := by
  have hc : (back && (h.deviceType == DeviceType.litraBeamLX)) = true ↔
      (back = true ∧ h.deviceType = DeviceType.litraBeamLX) := by
    simp [Bool.and_eq_true]
  by_cases hcond : back = true ∧ h.deviceType = DeviceType.litraBeamLX
  · constructor
    · simp [toggle_back_light_if_applicable, hc.mpr hcond, hcond]
    · intro _
      simp [toggle_back_light_if_applicable, hc.mpr hcond]
  · have hfalse : (back && (h.deviceType == DeviceType.litraBeamLX)) = false := by
      rcases Bool.eq_false_or_eq_true (back && (h.deviceType == DeviceType.litraBeamLX)) with
        ht | hf
      · exact absurd (hc.mp ht) hcond
      · exact hf
    constructor
    · simp [toggle_back_light_if_applicable, hfalse, hcond]
    · intro hcond2
      exact absurd hcond2 hcond

/-- Witness for C8: a Beam LX with `back` enabled and a failing back-light
call still yields exactly one back-light attempt with the primary power
value. -/
theorem c8_back_light_witness :
    toggle_back_light_if_applicable
      ⟨DeviceType.litraBeamLX, SerialReadResult.okNone, true, true, false, true⟩ true true
      = [ApplyOp.setBackOn
          ⟨DeviceType.litraBeamLX, SerialReadResult.okNone, true, true, false, true⟩
          true false] :=
  (c8_back_light _ true true).2 ⟨rfl, rfl⟩

/-- Claim C1: the code violates the claim. With `require_device` set and no
devices, the matcher path inside the scheduled apply does produce the fatal
error (`NoDevicesFound`, or `DeviceNotFound` under a serial filter), but the
spawned delayed action discards it (`let _ = turn_on_all_... `), so nothing
propagates to the session driver and the process does not terminate —
contradicting the `--require-device` help text. With `require_device`
false, the absence of devices is only logged and the body returns normally,
as the claim says. -/
theorem c1_fatal_error_discarded :
    (turn_on_all_supported_devices_and_log ⟨true, []⟩ none none none true false).2
        = Except.error CliError.NoDevicesFound ∧
    (turn_on_all_supported_devices_and_log ⟨true, []⟩ (some "AA11") none none true false).2
        = Except.error (CliError.DeviceNotFound "AA11") ∧
    pending_action_body ⟨true, []⟩ none none none true false (some true)
        = (none, [DevOp.refresh], []) ∧
    pending_action_body ⟨true, []⟩ none none none false false (some true)
        = (none, [DevOp.refresh], [ApplyOp.notFoundLog none]) := by
  refine ⟨rfl, ?_, rfl, rfl⟩
  decide

/-- When validation passes, the matcher's first device operation is the
mandatory refresh. -/
lemma get_all_trace_head (ctx : Litra) (sn dp dt : Option String) (rd : Bool)
    (hv : validate_single_filter sn dp dt = Except.ok ()) :
    (get_all_supported_devices ctx sn dp dt rd).1.head? = some DevOp.refresh := by
  simp only [get_all_supported_devices, hv]
  rcases hr : ctx.refreshOk
  · simp only [hr, Bool.false_eq_true, if_false]
    rfl
  · simp only [hr, if_true]
    split
    · split <;> rfl
    · rfl

/-- When validation passes, the matcher never returns
`MultipleFiltersSpecified`. -/
lemma get_all_not_mfs (ctx : Litra) (sn dp dt : Option String) (rd : Bool)
    (hv : validate_single_filter sn dp dt = Except.ok ()) :
    (get_all_supported_devices ctx sn dp dt rd).2
      ≠ Except.error CliError.MultipleFiltersSpecified := by
  simp only [get_all_supported_devices, hv]
  rcases hr : ctx.refreshOk
  · simp only [hr, Bool.false_eq_true, if_false]
    simp
  · simp only [hr, if_true]
    split
    · split <;> simp
    · simp

/-- Claim C5: specifying more than one of the serial-number, device-path
and device-type filters fails with `MultipleFiltersSpecified` before any
refresh, open or matching runs (the operation trace is empty); with zero or
one filter set, validation passes: the first operation is the refresh and
the result is never `MultipleFiltersSpecified`. -/
theorem c5_single_filter_validation (ctx : Litra) (sn dp dt : Option String) (rd : Bool) :
    (1 < (List.filter (fun x => x) [sn.isSome, dp.isSome, dt.isSome]).length →
      get_all_supported_devices ctx sn dp dt rd
        = ([], Except.error CliError.MultipleFiltersSpecified)) ∧
    ((List.filter (fun x => x) [sn.isSome, dp.isSome, dt.isSome]).length ≤ 1 →
      (get_all_supported_devices ctx sn dp dt rd).1.head? = some DevOp.refresh ∧
      (get_all_supported_devices ctx sn dp dt rd).2
        ≠ Except.error CliError.MultipleFiltersSpecified) := by
  constructor
  · intro h
    have hv : validate_single_filter sn dp dt
        = Except.error CliError.MultipleFiltersSpecified := by
      simp [validate_single_filter, h]
    simp [get_all_supported_devices, hv]
  · intro h
    have hnot : ¬ (List.filter (fun x => x) [sn.isSome, dp.isSome, dt.isSome]).length > 1 := by
      omega
    have hv : validate_single_filter sn dp dt = Except.ok () := by
      simp [validate_single_filter, hnot]
    exact ⟨get_all_trace_head ctx sn dp dt rd hv, get_all_not_mfs ctx sn dp dt rd hv⟩

/-- Witness for C5: serial + path filters together are rejected with an
empty trace; a path filter alone proceeds to the refresh. -/
theorem c5_single_filter_validation_witness :
    (1 < (List.filter (fun x => x)
      [(some "A" : Option String).isSome, (some "/dev/x" : Option String).isSome,
        (none : Option String).isSome]).length) ∧
    get_all_supported_devices ⟨true, []⟩ (some "A") (some "/dev/x") none false
      = ([], Except.error CliError.MultipleFiltersSpecified) ∧
    (get_all_supported_devices ⟨true, []⟩ none (some "/dev/x") none false).1.head?
      = some DevOp.refresh :=
  ⟨by decide,
    (c5_single_filter_validation ⟨true, []⟩ (some "A") (some "/dev/x") none false).1 (by decide),
    ((c5_single_filter_validation ⟨true, []⟩ none (some "/dev/x") none false).2 (by decide)).1⟩

/-- Claim C6: with a serial filter, every connected device is a candidate
(the first pass passes all of them), every candidate is opened, and the
returned handle list is exactly the second pass: candidates that open
successfully and whose read serial equals the filter value; open failures
and unreadable serials are silently dropped and cause no error. -/
theorem c6_serial_second_pass (ctx : Litra) (s : String) (rd : Bool)
    (hre : ctx.refreshOk = true)
    (hok : rd = false ∨ serialSecondPass s ctx.connectedDevices ≠ []) :
    (get_all_supported_devices ctx (some s) none none rd).2
        = Except.ok (serialSecondPass s ctx.connectedDevices) ∧
    (get_all_supported_devices ctx (some s) none none rd).1
        = DevOp.refresh :: ctx.connectedDevices.map DevOp.openDev ∧
    ∀ h₀ : DeviceHandle,
      h₀ ∈ serialSecondPass s ctx.connectedDevices ↔
        ∃ d ∈ ctx.connectedDevices, d.openResult = some h₀ ∧
          h₀.serial = SerialReadResult.okSome s := by
  have hv : validate_single_filter (some s) none none = Except.ok () := rfl
  have hfilter := filter_serial_only s ctx.connectedDevices
  have hcond : ((serialSecondPass s ctx.connectedDevices).isEmpty && rd) = false := by
    rcases hok with hrd | hne
    · rw [hrd, Bool.and_false]
    · rw [isEmpty_false_of_ne_nil hne, Bool.false_and]
  refine ⟨?_, ?_, fun h₀ => mem_serialSecondPass s ctx.connectedDevices h₀⟩ <;>
    simp only [get_all_supported_devices, hv, hre, if_true, hfilter, hcond,
      Bool.false_eq_true, if_false]

/-- A handle whose serial reads as `"S1"`, used by the C6 witness. -/
def c6GoodHandle : DeviceHandle :=
  ⟨DeviceType.litraBeam, SerialReadResult.okSome "S1", true, true, true, true⟩

/-- A context holding a matching device, a device that fails to open, one
with an unreadable serial, and one with a different serial. -/
def c6Ctx : Litra :=
  ⟨true,
    [⟨"/p1", DeviceType.litraBeam, some c6GoodHandle⟩,
     ⟨"/p2", DeviceType.litraGlow, none⟩,
     ⟨"/p3", DeviceType.litraGlow,
       some ⟨DeviceType.litraGlow, SerialReadResult.err, true, true, true, true⟩⟩,
     ⟨"/p4", DeviceType.litraBeam,
       some ⟨DeviceType.litraBeam, SerialReadResult.okSome "S2", true, true, true, true⟩⟩]⟩

/-- Witness for C6: only the matching device survives the second pass; the
open failure and the unreadable serial produce no error. -/
theorem c6_serial_second_pass_witness :
    c6Ctx.refreshOk = true ∧
    serialSecondPass "S1" c6Ctx.connectedDevices = [c6GoodHandle] ∧
    (get_all_supported_devices c6Ctx (some "S1") none none true).2
      = Except.ok (serialSecondPass "S1" c6Ctx.connectedDevices) :=
  ⟨rfl, by decide,
    (c6_serial_second_pass c6Ctx "S1" true rfl (Or.inr (by decide))).1⟩

/-- Claim C4: for a non-empty matched handle list, turn-on and turn-off
succeed (never returning an error because of a per-device failure), their
operation lists are the full per-handle loop in order, and every matched
handle receives its `set_on` attempt regardless of which handles fail. -/
theorem c4_per_device_isolation (ctx : Litra) (sn dp dt : Option String) (rd back : Bool)
    (handles : List DeviceHandle)
    (hh : (get_all_supported_devices ctx sn dp dt rd).2 = Except.ok handles)
    (hne : handles ≠ []) :
    (turn_on_all_supported_devices_and_log ctx sn dp dt rd back).2
        = Except.ok (applyOpsFor back true handles) ∧
    (turn_off_all_supported_devices_and_log ctx sn dp dt rd back).2
        = Except.ok (applyOpsFor back false handles) ∧
    (∀ h ∈ handles, ApplyOp.setOn h true (h.setOnOk true) ∈ applyOpsFor back true handles) ∧
    (∀ h ∈ handles, ApplyOp.setOn h false (h.setOnOk false) ∈ applyOpsFor back false handles) := by
  have hie : handles.isEmpty = false := isEmpty_false_of_ne_nil hne
  refine ⟨?_, ?_, fun h hm => setOn_mem_applyOpsFor back true handles h hm,
    fun h hm => setOn_mem_applyOpsFor back false handles h hm⟩
  · simp [turn_on_all_supported_devices_and_log, hh, hie]
  · simp [turn_off_all_supported_devices_and_log, hh, hie]

/-- First handle for the C4 witness (its `set_on` succeeds). -/
def c4H1 : DeviceHandle :=
  ⟨DeviceType.litraGlow, SerialReadResult.okSome "D1", true, true, true, true⟩

/-- Second handle for the C4 witness (its `set_on` fails for both values). -/
def c4H2 : DeviceHandle :=
  ⟨DeviceType.litraGlow, SerialReadResult.okSome "D2", false, false, true, true⟩

/-- Third handle for the C4 witness (its `set_on` succeeds). -/
def c4H3 : DeviceHandle :=
  ⟨DeviceType.litraGlow, SerialReadResult.okSome "D3", true, true, true, true⟩

/-- A context with three devices opening to the three witness handles. -/
def c4Ctx : Litra :=
  ⟨true,
    [⟨"/d1", DeviceType.litraGlow, some c4H1⟩,
     ⟨"/d2", DeviceType.litraGlow, some c4H2⟩,
     ⟨"/d3", DeviceType.litraGlow, some c4H3⟩]⟩

/-- Witness for C4: three matched devices where the second one's power-set
fails; the call still succeeds and devices one and three still receive
their `set_on` attempt. -/
theorem c4_per_device_isolation_witness :
    ((get_all_supported_devices c4Ctx none none none false).2
        = Except.ok [c4H1, c4H2, c4H3] ∧ ([c4H1, c4H2, c4H3] : List DeviceHandle) ≠ []) ∧
    (turn_on_all_supported_devices_and_log c4Ctx none none none false false).2
        = Except.ok (applyOpsFor false true [c4H1, c4H2, c4H3]) ∧
    ApplyOp.setOn c4H1 true (c4H1.setOnOk true) ∈ applyOpsFor false true [c4H1, c4H2, c4H3] ∧
    ApplyOp.setOn c4H3 true (c4H3.setOnOk true) ∈ applyOpsFor false true [c4H1, c4H2, c4H3] ∧
    applyOpsFor false true [c4H1, c4H2, c4H3]
      = [ApplyOp.setOn c4H1 true true, ApplyOp.setOn c4H2 true false,
         ApplyOp.setOn c4H3 true true] := by
  have hc := c4_per_device_isolation c4Ctx none none none false false [c4H1, c4H2, c4H3]
    (by decide) (by decide)
  exact ⟨⟨by decide, by decide⟩, hc.1, hc.2.2.1 c4H1 (by decide), hc.2.2.1 c4H3 (by decide),
    by decide⟩

/-- Claim C3: on expiry the delayed action takes (reads and clears) the
desired-state cell; when the taken value is absent it performs no device
operation at all; otherwise it performs exactly the matcher's operations
(with the configured filter) followed by applies whose power value is the
taken value — on for intent `true`, off for intent `false` (the only other
possible operation is the not-found log line). -/
theorem c3_expiry_behaviour (ctx : Litra) (sn dp dt : Option String) (rd back : Bool) :
    pending_action_body ctx sn dp dt rd back none = (none, [], []) ∧
    ∀ b : Bool,
      (pending_action_body ctx sn dp dt rd back (some b)).1 = none ∧
      (pending_action_body ctx sn dp dt rd back (some b)).2.1
          = (get_all_supported_devices ctx sn dp dt rd).1 ∧
      ∀ op ∈ (pending_action_body ctx sn dp dt rd back (some b)).2.2,
        ApplyOp.powerValue op = some b ∨ op = ApplyOp.notFoundLog sn := by
  refine ⟨rfl, fun b => ⟨?_, ?_, ?_⟩⟩
  · cases b <;> rfl
  · cases b <;> rfl
  · cases b
    · intro op hop
      have hops : (pending_action_body ctx sn dp dt rd back (some false)).2.2
          = match (turn_off_all_supported_devices_and_log ctx sn dp dt rd back).2 with
            | .ok ops => ops
            | .error _ => [] := rfl
      rw [hops] at hop
      rcases h2 : (turn_off_all_supported_devices_and_log ctx sn dp dt rd back).2 with e | ops
      · rw [h2] at hop; exact absurd hop (List.not_mem_nil op)
      · rw [h2] at hop
        exact turn_off_ops_spec ctx sn dp dt rd back ops h2 op hop
    · intro op hop
      have hops : (pending_action_body ctx sn dp dt rd back (some true)).2.2
          = match (turn_on_all_supported_devices_and_log ctx sn dp dt rd back).2 with
            | .ok ops => ops
            | .error _ => [] := rfl
      rw [hops] at hop
      rcases h2 : (turn_on_all_supported_devices_and_log ctx sn dp dt rd back).2 with e | ops
      · rw [h2] at hop; exact absurd hop (List.not_mem_nil op)
      · rw [h2] at hop
        exact turn_on_ops_spec ctx sn dp dt rd back ops h2 op hop

/-- Witness for C3, on a context with no devices: the absent cell performs
nothing; intent `false` clears the cell, performs the matcher's refresh,
and its only apply operation is the not-found log line. -/
theorem c3_expiry_behaviour_witness :
    pending_action_body ⟨true, []⟩ none none none false true none = (none, [], []) ∧
    (pending_action_body ⟨true, []⟩ none none none false true (some false)).1 = none ∧
    (pending_action_body ⟨true, []⟩ none none none false true (some false)).2.1
        = (get_all_supported_devices ⟨true, []⟩ none none none false).1 ∧
    (ApplyOp.powerValue (ApplyOp.notFoundLog none) = some false ∨
      ApplyOp.notFoundLog (none : Option String) = ApplyOp.notFoundLog none) := by
  have h := c3_expiry_behaviour ⟨true, []⟩ none none none false true
  exact ⟨h.1, (h.2 false).1, (h.2 false).2.1,
    (h.2 false).2.2 (ApplyOp.notFoundLog none) (by decide)⟩

/-- From a state holding the desired value of the edge at `t` and a pending
action scheduled at `t + delay`, a burst whose remaining edges all arrive
within the delay produces exactly one apply, carrying the last edge's
value. -/
lemma runEdges_scheduled (delay : Nat) :
    ∀ (edges : List (Nat × Bool)) (t : Nat) (b : Bool),
      gapsOk delay ((t, b) :: edges) = true →
      (runEdges delay ⟨some b, some (t + delay)⟩ edges).2
          ++ flushPending (runEdges delay ⟨some b, some (t + delay)⟩ edges).1
        = [(((t, b) :: edges).getLast (List.cons_ne_nil _ _)).2]
  | [], t, b, _ => rfl
  | (t2, b2) :: rest, t, b, h => by
    have hgap : t2 < t + delay := by
      have := h
      simp only [gapsOk, Bool.and_eq_true, decide_eq_true_eq] at this
      exact this.1
    have htail : gapsOk delay ((t2, b2) :: rest) = true := by
      simp only [gapsOk, Bool.and_eq_true, decide_eq_true_eq] at h ⊢
      rcases rest with _ | ⟨r, rs⟩
      · trivial
      · exact h.2
    have hfire : fireIfDue ⟨some b, some (t + delay)⟩ t2 = (⟨some b, some (t + delay)⟩, []) := by
      simp only [fireIfDue, if_neg (Nat.not_le.mpr hgap)]
    have hstep :
        runEdges delay ⟨some b, some (t + delay)⟩ ((t2, b2) :: rest)
          = runEdges delay ⟨some b2, some (t2 + delay)⟩ rest := by
      simp only [runEdges, hfire, acceptEdge, List.nil_append]
    rw [hstep]
    rw [runEdges_scheduled delay rest t2 b2 htail]
    rw [List.getLast_cons (List.cons_ne_nil _ _)]

/-- Claim C2: for every non-empty burst of intent edges whose gaps are all
shorter than the settle delay, the device applier runs exactly once for the
whole burst, with the power value of the last edge — because at any instant
at most one pending action exists and each accepted edge aborts the
existing one before scheduling its replacement. -/
theorem c2_debounce_burst (delay : Nat) (edges : List (Nat × Bool))
    (hne : edges ≠ []) (hgap : gapsOk delay edges = true) :
    runBurst delay edges = [(edges.getLast hne).2] := by
  rcases edges with _ | ⟨⟨t, b⟩, rest⟩
  · exact absurd rfl hne
  · have hinit :
        runEdges delay ⟨none, none⟩ ((t, b) :: rest)
          = runEdges delay ⟨some b, some (t + delay)⟩ rest := by
      simp only [runEdges, fireIfDue, acceptEdge, List.nil_append]
    unfold runBurst
    rw [hinit]
    exact runEdges_scheduled delay rest t b hgap

/-- Witness for C2, matching the spec's simulation: edges active, inactive,
active at 0, 700 and 1400 ms with a 1500 ms delay yield exactly one apply
with power on. -/
theorem c2_debounce_burst_witness :
    gapsOk 1500 [(0, true), (700, false), (1400, true)] = true ∧
    runBurst 1500 [(0, true), (700, false), (1400, true)] = [true] := by
  have h := c2_debounce_burst 1500 [(0, true), (700, false), (1400, true)]
    (by decide) (by decide)
  exact ⟨by decide, h⟩

/-- Claim C7, counterexample: with two video devices open, a batch holding
one close event changes the count from 2 to 1. The loop is not suppressed:
it forwards intent `true` and schedules a new delayed action, although no
net transition into "at least one camera active" or "zero cameras active"
occurred (the state was already "at least one active" and stays there). -/
theorem c7_counterexample :
    watchIteration "video" ⟨2, some true, 5⟩ [⟨some "video0", EventMask.closeWrite⟩]
      = ⟨1, some true, 6⟩ ∧ (2 : Nat) ≠ 0 ∧ (1 : Nat) ≠ 0 := by
  refine ⟨?_, by decide, by decide⟩
  decide

/-- Claim C7 (amended): an event batch that leaves the coalesced
open-video-device count unchanged is suppressed — no intent update and no
new delayed action; any batch that changes the count forwards the intent
"at least one camera active iff the new count is nonzero" and schedules a
new delayed action, even when the batch does not cross between the zero
and nonzero states. -/
theorem c7_watch_loop_forwarding (pfx : String) (s : WatchState)
    (events : List InotifyEvent) :
    (events.foldl (processEvent pfx) s.numDevicesOpen = s.numDevicesOpen →
      watchIteration pfx s events = s) ∧
    (events.foldl (processEvent pfx) s.numDevicesOpen ≠ s.numDevicesOpen →
      watchIteration pfx s events
        = ⟨events.foldl (processEvent pfx) s.numDevicesOpen,
            some (events.foldl (processEvent pfx) s.numDevicesOpen != 0),
            s.spawnCount + 1⟩) := by
  constructor
  · intro h
    simp [watchIteration, h]
  · intro h
    simp only [watchIteration, if_neg h]

/-- Witness for C7 (amended): an open event on a fresh video device is not
suppressed and forwards intent `true`; an unrelated event batch is
suppressed. -/
theorem c7_watch_loop_forwarding_witness :
    ([(⟨some "video0", EventMask.opened⟩ : InotifyEvent)].foldl (processEvent "video") 0 ≠ 0) ∧
    watchIteration "video" ⟨0, none, 0⟩ [⟨some "video0", EventMask.opened⟩]
      = ⟨1, some true, 1⟩ ∧
    ([(⟨some "other0", EventMask.opened⟩ : InotifyEvent)].foldl (processEvent "video") 3 = 3) ∧
    watchIteration "video" ⟨3, some true, 7⟩ [⟨some "other0", EventMask.opened⟩]
      = ⟨3, some true, 7⟩ := by
  refine ⟨by decide, ?_, by decide, ?_⟩
  · have h := (c7_watch_loop_forwarding "video" ⟨0, none, 0⟩
      [⟨some "video0", EventMask.opened⟩]).2 (by decide)
    rw [h]
    decide
  · exact (c7_watch_loop_forwarding "video" ⟨3, some true, 7⟩
      [⟨some "other0", EventMask.opened⟩]).1 (by decide)

/-- A single event with a non-open mask cannot raise a zero count: `Nat`
subtraction is exactly `usize::saturating_sub`, so a close at zero stays
at zero. -/
lemma processEvent_zero (pfx : String) (e : InotifyEvent) (h : e.mask ≠ EventMask.opened) :
    processEvent pfx 0 e = 0 := by
  rcases e with ⟨name, mask⟩
  cases name with
  | none => rfl
  | some n =>
    cases mask with
    | opened => exact absurd rfl h
    | closeWrite => simp only [processEvent]; split <;> rfl
    | closeNoWrite => simp only [processEvent]; split <;> rfl
    | other => simp only [processEvent]; split <;> rfl

/-- A batch with no open events keeps a zero count at zero. -/
lemma foldl_processEvent_zero (pfx : String) :
    ∀ events : List InotifyEvent, (∀ e ∈ events, e.mask ≠ EventMask.opened) →
      events.foldl (processEvent pfx) 0 = 0
  | [], _ => rfl
  | e :: rest, h => by
    have h0 : processEvent pfx 0 e = 0 := processEvent_zero pfx e (h e (List.mem_cons_self e rest))
    simp only [List.foldl_cons, h0]
    exact foldl_processEvent_zero pfx rest fun x hx => h x (List.mem_cons_of_mem e hx)

/-- Claim C10: the open-video-device counter never underflows. A close
event arriving when the count is already zero leaves it at zero (saturating
subtraction), and a whole batch of spurious closes at count zero leaves the
loop state untouched — in particular it cannot report a phantom "camera
on" transition by wraparound. -/
theorem c10_counter_never_underflows (pfx : String) (events : List InotifyEvent)
    (d : Option Bool) (c : Nat)
    (hnoopen : ∀ e ∈ events, e.mask ≠ EventMask.opened) :
    (∀ nm : String, processEvent pfx 0 ⟨some nm, EventMask.closeWrite⟩ = 0 ∧
      processEvent pfx 0 ⟨some nm, EventMask.closeNoWrite⟩ = 0) ∧
    events.foldl (processEvent pfx) 0 = 0 ∧
    watchIteration pfx ⟨0, d, c⟩ events = ⟨0, d, c⟩ := by
  have hfold := foldl_processEvent_zero pfx events hnoopen
  refine ⟨fun nm => ⟨processEvent_zero pfx _ (by simp), processEvent_zero pfx _ (by simp)⟩,
    hfold, ?_⟩
  simp [watchIteration, hfold]

/-- Witness for C10: two spurious close events on a watched video device at
count zero leave the count at zero and the iteration suppressed. -/
theorem c10_counter_never_underflows_witness :
    processEvent "video" 0 ⟨some "video0", EventMask.closeWrite⟩ = 0 ∧
    watchIteration "video" ⟨0, none, 4⟩
      [⟨some "video0", EventMask.closeWrite⟩, ⟨some "video1", EventMask.closeNoWrite⟩]
      = ⟨0, none, 4⟩ := by
  have h := c10_counter_never_underflows "video"
    [⟨some "video0", EventMask.closeWrite⟩, ⟨some "video1", EventMask.closeNoWrite⟩]
    none 4 (by decide)
  exact ⟨(h.1 "video0").1, h.2.2⟩
